import Mathlib

/-!
Shallow embedding of the control-center registry and dispatch core of the
`gen-ai-agents-using-jules` repository.

Two variants of the control center exist in the source:

* the agent variant (edge agents with heartbeats), embedded in the
  `AgentVariant` namespace — from the `AgentStore` / `DeploymentStore`
  code of the heartbeat-based control center;
* the cluster variant (Kubernetes clusters), embedded in the
  `ClusterVariant` namespace — from `control-center/main.go`.

Modelling conventions:

* Go `map[string]*T` becomes `String → Option T`; a Go map read
  `m[k]` of a missing key yields the zero value (nil slice), which we
  render explicitly as `(m k).getD []` where the code reads a slice.
* The agent registry is additionally iterated by `List()`, so it is kept
  as an insertion-ordered list of agents; Go map insertion
  (`s.agents[id] = agent`) is `upsert`, which overwrites an existing
  binding with the same id.
* `uuid.New()` and `time.Now()` are environment inputs: every operation
  that reads them takes the drawn uuid string / the current time as an
  explicit argument.  Time is in nanoseconds (Go `time.Duration` units).
* The `go func() { deployToK8s(...) }()` goroutine is modelled as a
  dispatch task recorded at creation and executed by a later, separate
  scheduler step (`sysStep … (.runDispatch …)`) with an arbitrary
  executor outcome.
-/

/-- Time in nanoseconds, the unit of Go `time.Duration`. -/
abbrev Time := Nat

/-- Go `45 * time.Second`, the heartbeat liveness window, in nanoseconds. -/
def offlineCutoff : Time := 45 * 1000000000

/-- Outcome of an HTTP handler, with exact status codes of the source:
400 `badRequest`, 404 `notFound`, 201 `created`. -/
inductive HttpResult (α : Type) where
  | badRequest (msg : String)
  | notFound (msg : String)
  | created (body : α)
deriving DecidableEq

/-- Hexadecimal digit as produced by `uuid.String()` (lower-case). -/
def isHexDigit (c : Char) : Bool :=
  c.isDigit || ('a' ≤ c && c ≤ 'f')

/-- An 8-character hexadecimal string. -/
def isHex8 (t : String) : Bool :=
  t.length == 8 && t.toList.all isHexDigit

/-- A string whose first 8 characters are hex digits, as is true of every
`uuid.New().String()` output (format `xxxxxxxx-xxxx-…`). -/
def uuidShaped (u : String) : Bool :=
  isHex8 (u.take 8)

namespace AgentVariant

/-- `Agent` struct: id, address, last heartbeat time, derived status. -/
structure Agent where
  id : String
  address : String
  lastSeen : Time
  status : String
deriving DecidableEq

/-- `AgentStore`: the registry map, kept as an insertion-ordered list of
agents (ids are the map keys). -/
structure AgentStore where
  agents : List Agent
deriving DecidableEq

/-- Go map insertion `s.agents[id] = agent`: overwrite the binding with
the same id if present, else append. -/
def upsert : List Agent → Agent → List Agent
  | [], a => [a]
  | b :: rest, a => if b.id = a.id then a :: rest else b :: upsert rest a

/-- `AgentStore.Register`: store a new agent with the generated uuid,
`LastSeen = now`, status `"online"`. -/
def AgentStore.register (s : AgentStore) (genId : String) (now : Time) (addr : String) :
    Agent × AgentStore :=
  let agent : Agent := { id := genId, address := addr, lastSeen := now, status := "online" }
  (agent, ⟨upsert s.agents agent⟩)

/-- `AgentStore.Heartbeat`: if the id exists, set `LastSeen = now` and
status `"online"` and return `true`; else return `false`. -/
def AgentStore.heartbeat (s : AgentStore) (id : String) (now : Time) : Bool × AgentStore :=
  if s.agents.any (fun a => a.id == id) then
    (true, ⟨s.agents.map (fun a =>
        if a.id = id then { a with lastSeen := now, status := "online" } else a)⟩)
  else
    (false, s)

/-- The status update `List()` applies to each agent before listing:
`if time.Since(agent.LastSeen) > 45*time.Second { agent.Status = "offline" }`.
No other branch exists: the status is otherwise left unchanged. -/
def markOffline (now : Time) (a : Agent) : Agent :=
  if now - a.lastSeen > offlineCutoff then { a with status := "offline" } else a

/-- `AgentStore.List`: update every agent's status per `markOffline`,
then return all agents (the store retains the updated statuses). -/
def AgentStore.list (s : AgentStore) (now : Time) : List Agent × AgentStore :=
  let updated := s.agents.map (markOffline now)
  (updated, ⟨updated⟩)

/-- `Deployment` struct of the agent variant. -/
structure Deployment where
  id : String
  agentID : String
  imageURL : String
  status : String
  createdAt : Time
deriving DecidableEq

/-- `DeploymentStore`: primary map `deployments` keyed by deployment id,
secondary index `byAgent` keyed by owning agent id. -/
structure DeploymentStore where
  deployments : String → Option Deployment
  byAgent : String → Option (List Deployment)

/-- `NewDeploymentStore()`: both maps empty. -/
def emptyDeploymentStore : DeploymentStore :=
  { deployments := fun _ => none, byAgent := fun _ => none }

/-- The record built by `DeploymentStore.Create`:
`ID = fmt.Sprintf("dep-%s", uuid.New().String()[:8])`, status `"pending"`,
`CreatedAt = time.Now().UTC()`. -/
def mkDeployment (uuidStr agentID imageURL : String) (now : Time) : Deployment :=
  { id := "dep-" ++ uuidStr.take 8
    agentID := agentID
    imageURL := imageURL
    status := "pending"
    createdAt := now }

/-- `DeploymentStore.Create`: build the record, insert it into the
primary map under its id (overwriting any existing binding, as a Go map
write does), and append it to the owner's index slice
(`s.byAgent[agentID] = append(s.byAgent[agentID], dep)`; a missing key
reads as the nil slice). -/
def DeploymentStore.create (s : DeploymentStore) (uuidStr agentID imageURL : String)
    (now : Time) : Deployment × DeploymentStore :=
  let dep := mkDeployment uuidStr agentID imageURL now
  (dep,
    { deployments := fun k => if k = dep.id then some dep else s.deployments k
      byAgent := fun k =>
        if k = agentID then some ((s.byAgent agentID).getD [] ++ [dep]) else s.byAgent k })

/-- The `make` + `copy` in `ListForAgent`: a fresh structural copy of the
slice. -/
def copySlice : List α → List α
  | [] => []
  | a :: rest => a :: copySlice rest

/-- `DeploymentStore.ListForAgent`: return a copy of the owner's index
slice; a missing key reads as the nil slice, so the result is empty. -/
def DeploymentStore.listForAgent (s : DeploymentStore) (agentID : String) :
    List Deployment :=
  copySlice ((s.byAgent agentID).getD [])

/-- `DeploymentRequest` body of `POST /api/v1/deployments`. -/
structure DeploymentRequest where
  agentID : String
  imageURL : String
deriving DecidableEq

/-- The agent-variant `POST /api/v1/deployments` handler after JSON
decoding: a 400 on missing fields, otherwise create the deployment with
no existence check on the agent id (the source marks this with a TODO)
and answer 201 with the record. -/
def handleCreateDeployment (ds : DeploymentStore) (req : DeploymentRequest)
    (uuidStr : String) (now : Time) : HttpResult Deployment × DeploymentStore :=
  if req.agentID = "" ∨ req.imageURL = "" then
    (.badRequest "agent_id and image_url are required", ds)
  else
    let (dep, ds') := ds.create uuidStr req.agentID req.imageURL now
    (.created dep, ds')

/-- `NewAgentStore()`: empty registry. -/
def emptyAgentStore : AgentStore :=
  { agents := [] }

/-- One operation of the agent registry, with its environment inputs
(generated uuid for `register`). -/
inductive AgentOp where
  | register (genId : String) (addr : String)
  | heartbeat (id : String)
  | list
deriving DecidableEq

/-- Apply one registry operation at time `now`, keeping the store. -/
def agentStep (s : AgentStore) (op : AgentOp) (now : Time) : AgentStore :=
  match op with
  | .register genId addr => (s.register genId now addr).2
  | .heartbeat id => (s.heartbeat id now).2
  | .list => (s.list now).2

/-- Run a timed sequence of registry operations. -/
def runAgentOps : List (AgentOp × Time) → AgentStore → AgentStore
  | [], s => s
  | e :: rest, s => runAgentOps rest (agentStep s e.1 e.2)

/-- The ids returned by the `register` calls of a trace. -/
def registeredIds : List (AgentOp × Time) → List String
  | [] => []
  | (AgentOp.register genId _, _) :: rest => genId :: registeredIds rest
  | _ :: rest => registeredIds rest

/-- Whether an operation can touch the status of the agent with id `id`
other than through `list` (a heartbeat for that id, or a registration
that reuses that id). -/
def touchesId (id : String) : AgentOp → Bool
  | .register genId _ => genId == id
  | .heartbeat hid => hid == id
  | .list => false

/-- One `Create` call's environment inputs: the uuid drawn, the request
fields, and the wall-clock time. -/
structure CreateIn where
  uuidStr : String
  agentID : String
  imageURL : String
  now : Time
deriving DecidableEq

/-- Run a sequence of `Create` calls, collecting the returned records. -/
def runCreates : List CreateIn → DeploymentStore → List Deployment × DeploymentStore
  | [], s => ([], s)
  | c :: rest, s =>
    let (d, s') := s.create c.uuidStr c.agentID c.imageURL c.now
    let (ds, s'') := runCreates rest s'
    (d :: ds, s'')

/-- The deployment ids a sequence of `Create` inputs allocates. -/
def depIds (ins : List CreateIn) : List String :=
  ins.map (fun c => (mkDeployment c.uuidStr c.agentID c.imageURL c.now).id)

/-- Agreement of the Ledger's primary map and secondary index: every
record reachable from some owner's index slice is stored in the primary
map under its id, and every record in the primary map is keyed by its id
and appears in its owner's index slice. -/
def StoreAgrees (s : DeploymentStore) : Prop :=
  (∀ aid : String, ∀ d ∈ (s.byAgent aid).getD [], s.deployments d.id = some d) ∧
  (∀ id : String, ∀ d : Deployment, s.deployments id = some d →
    id = d.id ∧ d ∈ (s.byAgent d.agentID).getD [])

/-- Inductive invariant of the Ledger under `Create`, tracking the set
`used` of ids allocated so far. -/
def LedgerInv (used : List String) (s : DeploymentStore) : Prop :=
  (∀ aid : String, ∀ d ∈ (s.byAgent aid).getD [],
    d.agentID = aid ∧ d.id ∈ used ∧ s.deployments d.id = some d) ∧
  (∀ id : String, ∀ d : Deployment, s.deployments id = some d →
    id = d.id ∧ d.id ∈ used ∧ d ∈ (s.byAgent d.agentID).getD [])

/-- The statuses an agent can carry: `"online"` (register, heartbeat)
or `"offline"` (the `List` recomputation). -/
def statusOk (a : Agent) : Prop :=
  a.status = "online" ∨ a.status = "offline"

/-- Clock invariant of the registry at time `t`: no agent was last seen
in the future, and an `"offline"` status can only have been written when
the elapsed time already exceeded the cutoff. -/
def AgentInv (t : Time) (s : AgentStore) : Prop :=
  ∀ a ∈ s.agents, a.lastSeen ≤ t ∧
    (a.status = "offline" → t - a.lastSeen > offlineCutoff) ∧ statusOk a

end AgentVariant

namespace ClusterVariant

/-- `Deployment` struct of the cluster variant (`control-center/main.go`). -/
structure Deployment where
  id : String
  clusterID : String
  imageURL : String
  status : String
  createdAt : Time
deriving DecidableEq

/-- `DeploymentStore` of the cluster variant: primary map plus
`byCluster` index. -/
structure DeploymentStore where
  deployments : String → Option Deployment
  byCluster : String → Option (List Deployment)

/-- `NewDeploymentStore()`: both maps empty. -/
def emptyDeploymentStore : DeploymentStore :=
  { deployments := fun _ => none, byCluster := fun _ => none }

/-- The record built by the cluster-variant `DeploymentStore.Create`. -/
def mkDeployment (uuidStr clusterID imageURL : String) (now : Time) : Deployment :=
  { id := "dep-" ++ uuidStr.take 8
    clusterID := clusterID
    imageURL := imageURL
    status := "pending"
    createdAt := now }

/-- Cluster-variant `DeploymentStore.Create`: insert into the primary
map under the new id and append to `byCluster[clusterID]`. -/
def DeploymentStore.create (s : DeploymentStore) (uuidStr clusterID imageURL : String)
    (now : Time) : Deployment × DeploymentStore :=
  let dep := mkDeployment uuidStr clusterID imageURL now
  (dep,
    { deployments := fun k => if k = dep.id then some dep else s.deployments k
      byCluster := fun k =>
        if k = clusterID then some ((s.byCluster clusterID).getD [] ++ [dep])
        else s.byCluster k })

/-- `DeploymentStore.ListForCluster`: a copy of the owner's slice. -/
def DeploymentStore.listForCluster (s : DeploymentStore) (clusterID : String) :
    List Deployment :=
  AgentVariant.copySlice ((s.byCluster clusterID).getD [])

/-- `Cluster` struct: id, name, base64 kubeconfig blob. -/
structure Cluster where
  id : String
  name : String
  kubeconfig : String
deriving DecidableEq

/-- `ClusterStore`: the registry map of clusters. -/
structure ClusterStore where
  clusters : String → Option Cluster

/-- `NewClusterStore()`. -/
def emptyClusterStore : ClusterStore :=
  { clusters := fun _ => none }

/-- `ClusterStore.Add`: store a new cluster under the generated uuid. -/
def ClusterStore.add (s : ClusterStore) (genId name kubeconfig : String) :
    Cluster × ClusterStore :=
  let cluster : Cluster := { id := genId, name := name, kubeconfig := kubeconfig }
  (cluster, { clusters := fun k => if k = genId then some cluster else s.clusters k })

/-- `ClusterStore.Get`: point lookup, no mutation. -/
def ClusterStore.get (s : ClusterStore) (id : String) : Option Cluster :=
  s.clusters id

/-- `DeploymentRequest` body of the cluster-variant POST. -/
structure DeploymentRequest where
  clusterID : String
  imageURL : String
deriving DecidableEq

/-- The work handed to the `go func() { deployToK8s(cluster, dep) }()`
goroutine: the resolved cluster and the created record. -/
structure DispatchTask where
  cluster : Cluster
  dep : Deployment
deriving DecidableEq

/-- The cluster-variant `POST /api/v1/deployments` handler after JSON
decoding: 400 on missing fields; 404 `"Cluster not found"` when
`clusterStore.Get` misses, with no deployment created; otherwise create
the record, spawn the dispatch task, and answer 201 with the record. -/
def handleCreateDeployment (cs : ClusterStore) (ds : DeploymentStore)
    (req : DeploymentRequest) (uuidStr : String) (now : Time) :
    HttpResult Deployment × DeploymentStore × Option DispatchTask :=
  if req.clusterID = "" ∨ req.imageURL = "" then
    (.badRequest "cluster_id and image_url are required", ds, none)
  else
    match cs.get req.clusterID with
    | none => (.notFound "Cluster not found", ds, none)
    | some cluster =>
      let (dep, ds') := ds.create uuidStr req.clusterID req.imageURL now
      (.created dep, ds', some ⟨cluster, dep⟩)

/-- Whole-process state of the cluster-variant control center: the two
stores, the spawned-but-not-yet-run dispatch goroutines, and the error
log written by failed dispatches. -/
structure SysState where
  cs : ClusterStore
  ds : DeploymentStore
  tasks : List DispatchTask
  failLog : List String

/-- Process start: empty stores, no pending dispatch, empty log. -/
def initSysState : SysState :=
  { cs := emptyClusterStore, ds := emptyDeploymentStore, tasks := [], failLog := [] }

/-- One observable step of the cluster-variant system.  `runDispatch i ok`
is the scheduler running the `i`-th pending dispatch goroutine, with
`ok` the outcome of the opaque `deployToK8s` call: the goroutine body
only logs on error and never writes to either store (the status
write-back is absent in the source — only a comment marks the spot). -/
inductive SysOp where
  | addCluster (genId name kubeconfig : String)
  | createDeployment (clusterID imageURL uuidStr : String) (now : Time)
  | runDispatch (i : Nat) (ok : Bool)
  | listDeployments (clusterID : String)
  | listClusters
deriving DecidableEq

/-- Apply one system step. -/
def sysStep (st : SysState) : SysOp → SysState
  | .addCluster genId name kubeconfig =>
    { st with cs := (st.cs.add genId name kubeconfig).2 }
  | .createDeployment clusterID imageURL uuidStr now =>
    match handleCreateDeployment st.cs st.ds ⟨clusterID, imageURL⟩ uuidStr now with
    | (_, ds', some task) => { st with ds := ds', tasks := st.tasks ++ [task] }
    | (_, ds', none) => { st with ds := ds' }
  | .runDispatch i ok =>
    match st.tasks[i]? with
    | none => st
    | some task =>
      { st with
          tasks := st.tasks.eraseIdx i
          failLog := if ok then st.failLog
                     else st.failLog ++ ["Kubernetes deployment failed for " ++ task.dep.id] }
  | .listDeployments _ => st
  | .listClusters => st

/-- Run a sequence of system steps. -/
def runSys : List SysOp → SysState → SysState
  | [], st => st
  | op :: rest, st => runSys rest (sysStep st op)

/-- Every deployment record held by the Ledger — in the primary map or
in any owner's index slice — has status `"pending"`. -/
def PendingInv (st : SysState) : Prop :=
  (∀ id : String, ∀ d : Deployment, st.ds.deployments id = some d → d.status = "pending") ∧
  (∀ cid : String, ∀ d ∈ (st.ds.byCluster cid).getD [], d.status = "pending")

end ClusterVariant

/-! ### Helper lemmas: agent registry -/

namespace AgentVariant

theorem copySlice_eq (l : List α) : copySlice l = l := by
  induction l with
  | nil => rfl
  | cons a rest ih => simpa [copySlice] using ih

theorem mem_upsert (l : List Agent) (b a : Agent) (h : a ∈ upsert l b) :
    a = b ∨ a ∈ l := by
  induction l with
  | nil => simpa [upsert] using h
  | cons c rest ih =>
    by_cases hc : c.id = b.id
    · simp only [upsert, if_pos hc, List.mem_cons] at h
      rcases h with h | h
      · exact Or.inl h
      · exact Or.inr (List.mem_cons_of_mem _ h)
    · simp only [upsert, if_neg hc, List.mem_cons] at h
      rcases h with rfl | h
      · exact Or.inr (List.mem_cons_self _ _)
      · rcases ih h with h' | h'
        · exact Or.inl h'
        · exact Or.inr (List.mem_cons_of_mem _ h')

theorem mem_upsert_of_ne (l : List Agent) (b a : Agent) (ha : a ∈ l)
    (hne : a.id ≠ b.id) : a ∈ upsert l b := by
  induction l with
  | nil => cases ha
  | cons c rest ih =>
    rcases List.mem_cons.mp ha with rfl | ha'
    · simp only [upsert, if_neg hne]
      exact List.mem_cons_self _ _
    · by_cases hc : c.id = b.id
      · simp only [upsert, if_pos hc]
        exact List.mem_cons_of_mem _ ha'
      · simp only [upsert, if_neg hc]
        exact List.mem_cons_of_mem _ (ih ha')

theorem idSet_upsert (l : List Agent) (b : Agent) (i : String) :
    (∃ a ∈ upsert l b, a.id = i) ↔ i = b.id ∨ ∃ a ∈ l, a.id = i := by
  induction l with
  | nil => simp [upsert, eq_comm]
  | cons c rest ih =>
    by_cases hc : c.id = b.id
    · simp only [upsert, if_pos hc, List.mem_cons]
      constructor
      · rintro ⟨a, rfl | ha, rfl⟩
        · exact Or.inl rfl
        · exact Or.inr ⟨a, Or.inr ha, rfl⟩
      · rintro (rfl | ⟨a, rfl | ha, rfl⟩)
        · exact ⟨b, Or.inl rfl, rfl⟩
        · exact ⟨b, Or.inl rfl, hc.symm⟩
        · exact ⟨a, Or.inr ha, rfl⟩
    · simp only [upsert, if_neg hc, List.mem_cons]
      constructor
      · rintro ⟨a, rfl | ha, rfl⟩
        · exact Or.inr ⟨a, Or.inl rfl, rfl⟩
        · rcases ih.mp ⟨a, ha, rfl⟩ with h | ⟨a', ha', h'⟩
          · exact Or.inl h
          · exact Or.inr ⟨a', Or.inr ha', h'⟩
      · rintro (rfl | ⟨a, rfl | ha, rfl⟩)
        · rcases ih.mpr (Or.inl rfl) with ⟨a, ha, h⟩
          exact ⟨a, Or.inr ha, h⟩
        · exact ⟨a, Or.inl rfl, rfl⟩
        · rcases ih.mpr (Or.inr ⟨a, ha, rfl⟩) with ⟨a', ha', h'⟩
          exact ⟨a', Or.inr ha', h'⟩

theorem AgentInv.mono {t t' : Time} {s : AgentStore} (h : AgentInv t s) (hle : t ≤ t') :
    AgentInv t' s := by
  intro a ha
  obtain ⟨h1, h2, h3⟩ := h a ha
  refine ⟨le_trans h1 hle, fun hoff => ?_, h3⟩
  exact lt_of_lt_of_le (h2 hoff) (Nat.sub_le_sub_right hle _)

theorem agentStep_inv {t t' : Time} {s : AgentStore} (op : AgentOp)
    (h : AgentInv t s) (hle : t ≤ t') : AgentInv t' (agentStep s op t') := by
  have h' : AgentInv t' s := h.mono hle
  cases op with
  | register genId addr =>
    intro a ha
    rcases mem_upsert _ _ _ ha with rfl | ha'
    · exact ⟨le_refl _, fun hoff => by simp at hoff, Or.inl rfl⟩
    · exact h' a ha'
  | heartbeat id =>
    simp only [agentStep, AgentStore.heartbeat]
    by_cases hidx : s.agents.any (fun a => a.id == id)
    · simp only [if_pos hidx]
      intro a ha
      rcases List.mem_map.mp ha with ⟨a0, ha0, rfl⟩
      by_cases hid : a0.id = id
      · simp only [if_pos hid]
        exact ⟨le_refl _, fun hoff => by simp at hoff, Or.inl rfl⟩
      · simp only [if_neg hid]
        exact h' a0 ha0
    · simp only [if_neg hidx]
      exact h'
  | list =>
    intro a ha
    rcases List.mem_map.mp ha with ⟨a0, ha0, rfl⟩
    obtain ⟨h1, h2, _⟩ := h' a0 ha0
    unfold markOffline
    by_cases hcut : t' - a0.lastSeen > offlineCutoff
    · simp only [if_pos hcut]
      exact ⟨h1, fun _ => hcut, Or.inr rfl⟩
    · simp only [if_neg hcut]
      exact h' a0 ha0

theorem runAgentOps_inv (evs : List (AgentOp × Time)) (s : AgentStore) (t now : Time)
    (h0 : AgentInv t s)
    (hchain : List.Chain (fun x y => x ≤ y) t (evs.map Prod.snd))
    (hle : ∀ e ∈ evs, e.2 ≤ now) (htn : t ≤ now) :
    AgentInv now (runAgentOps evs s) := by
  induction evs generalizing s t with
  | nil => exact h0.mono htn
  | cons e rest ih =>
    simp only [List.map_cons, List.chain_cons] at hchain
    exact ih (agentStep s e.1 e.2) e.2 (agentStep_inv e.1 h0 hchain.1) hchain.2
      (fun e' he' => hle e' (List.mem_cons_of_mem _ he'))
      (hle e (List.mem_cons_self _ _))

/-! ### Helper lemmas: deployment ledger -/

theorem create_fst (s : DeploymentStore) (uuidStr agentID imageURL : String) (now : Time) :
    (s.create uuidStr agentID imageURL now).1 = mkDeployment uuidStr agentID imageURL now :=
  rfl

theorem create_deployments (s : DeploymentStore) (uuidStr agentID imageURL : String)
    (now : Time) (k : String) :
    (s.create uuidStr agentID imageURL now).2.deployments k =
      if k = (mkDeployment uuidStr agentID imageURL now).id
      then some (mkDeployment uuidStr agentID imageURL now)
      else s.deployments k := by
  simp only [DeploymentStore.create]

theorem create_byAgent (s : DeploymentStore) (uuidStr agentID imageURL : String)
    (now : Time) (k : String) :
    (s.create uuidStr agentID imageURL now).2.byAgent k =
      if k = agentID
      then some ((s.byAgent agentID).getD [] ++ [mkDeployment uuidStr agentID imageURL now])
      else s.byAgent k := by
  simp only [DeploymentStore.create]

theorem runCreates_fst (ins : List CreateIn) (s : DeploymentStore) :
    (runCreates ins s).1 =
      ins.map (fun c => mkDeployment c.uuidStr c.agentID c.imageURL c.now) := by
  induction ins generalizing s with
  | nil => rfl
  | cons c rest ih => simp [runCreates, create_fst, ih]

theorem ledgerInv_create (used : List String) (s : DeploymentStore)
    (uuidStr agentID imageURL : String) (now : Time)
    (hinv : LedgerInv used s)
    (hfresh : (mkDeployment uuidStr agentID imageURL now).id ∉ used) :
    LedgerInv (used ++ [(mkDeployment uuidStr agentID imageURL now).id])
      (s.create uuidStr agentID imageURL now).2 := by
  obtain ⟨hIdx, hMap⟩ := hinv
  have hdepown : (mkDeployment uuidStr agentID imageURL now).agentID = agentID := rfl
  constructor
  · intro aid d hd
    rw [create_byAgent] at hd
    by_cases haid : aid = agentID
    · rw [if_pos haid] at hd
      simp only [Option.getD_some] at hd
      rcases List.mem_append.mp hd with hold | hnew
      · obtain ⟨e1, e2, e3⟩ := hIdx agentID d hold
        refine ⟨haid ▸ e1, List.mem_append_left _ e2, ?_⟩
        have hne : ¬ d.id = (mkDeployment uuidStr agentID imageURL now).id := by
          intro he
          rw [he] at e2
          exact hfresh e2
        rw [create_deployments, if_neg hne]
        exact e3
      · have hd' : d = mkDeployment uuidStr agentID imageURL now := List.mem_singleton.mp hnew
        subst hd'
        refine ⟨haid ▸ hdepown, List.mem_append_right _ (List.mem_singleton.mpr rfl), ?_⟩
        rw [create_deployments, if_pos rfl]
    · rw [if_neg haid] at hd
      obtain ⟨e1, e2, e3⟩ := hIdx aid d hd
      refine ⟨e1, List.mem_append_left _ e2, ?_⟩
      have hne : ¬ d.id = (mkDeployment uuidStr agentID imageURL now).id := by
        intro he
        rw [he] at e2
        exact hfresh e2
      rw [create_deployments, if_neg hne]
      exact e3
  · intro id d hd
    rw [create_deployments] at hd
    by_cases hid : id = (mkDeployment uuidStr agentID imageURL now).id
    · rw [if_pos hid] at hd
      have hd' : mkDeployment uuidStr agentID imageURL now = d := Option.some.inj hd
      subst hd'
      refine ⟨hid, List.mem_append_right _ (List.mem_singleton.mpr rfl), ?_⟩
      rw [create_byAgent, if_pos hdepown]
      simp only [Option.getD_some]
      exact List.mem_append_right _ (List.mem_singleton.mpr rfl)
    · rw [if_neg hid] at hd
      obtain ⟨e1, e2, e3⟩ := hMap id d hd
      refine ⟨e1, List.mem_append_left _ e2, ?_⟩
      rw [create_byAgent]
      by_cases hown : d.agentID = agentID
      · rw [if_pos hown]
        simp only [Option.getD_some]
        exact List.mem_append_left _ (hown ▸ e3)
      · rw [if_neg hown]
        exact e3

theorem ledgerInv_empty : LedgerInv [] emptyDeploymentStore := by
  constructor
  · intro aid d hd
    simp [emptyDeploymentStore] at hd
  · intro id d hd
    simp [emptyDeploymentStore] at hd

theorem runCreates_inv (ins : List CreateIn) (used : List String) (s : DeploymentStore)
    (hinv : LedgerInv used s) (hnd : (used ++ depIds ins).Nodup) :
    LedgerInv (used ++ depIds ins) (runCreates ins s).2 := by
  induction ins generalizing used s with
  | nil => simpa [depIds] using hinv
  | cons c rest ih =>
    have hids : depIds (c :: rest) =
        (mkDeployment c.uuidStr c.agentID c.imageURL c.now).id :: depIds rest := rfl
    rw [hids] at hnd ⊢
    have hassoc : used ++ (mkDeployment c.uuidStr c.agentID c.imageURL c.now).id :: depIds rest =
        (used ++ [(mkDeployment c.uuidStr c.agentID c.imageURL c.now).id]) ++ depIds rest := by
      simp
    rw [hassoc] at hnd ⊢
    have hfresh : (mkDeployment c.uuidStr c.agentID c.imageURL c.now).id ∉ used := by
      have hsub := hnd.sublist (List.sublist_append_left _ _)
      rcases List.nodup_append.mp hsub with ⟨_, _, hdisj⟩
      intro hmem
      exact hdisj hmem (List.mem_singleton.mpr rfl)
    have hstep := ledgerInv_create used s c.uuidStr c.agentID c.imageURL c.now hinv hfresh
    simpa [runCreates] using ih (used ++ [(mkDeployment c.uuidStr c.agentID c.imageURL c.now).id])
      (s.create c.uuidStr c.agentID c.imageURL c.now).2 hstep hnd

end AgentVariant

/-! ### Helper lemmas: cluster-variant system -/

namespace ClusterVariant

theorem create_deployments_cluster (s : DeploymentStore) (uuidStr clusterID imageURL : String)
    (now : Time) (k : String) :
    (s.create uuidStr clusterID imageURL now).2.deployments k =
      if k = (mkDeployment uuidStr clusterID imageURL now).id
      then some (mkDeployment uuidStr clusterID imageURL now)
      else s.deployments k := by
  simp only [DeploymentStore.create]

theorem create_byCluster (s : DeploymentStore) (uuidStr clusterID imageURL : String)
    (now : Time) (k : String) :
    (s.create uuidStr clusterID imageURL now).2.byCluster k =
      if k = clusterID
      then some ((s.byCluster clusterID).getD [] ++ [mkDeployment uuidStr clusterID imageURL now])
      else s.byCluster k := by
  simp only [DeploymentStore.create]

/-- The statuses invariant is preserved by a `Create` on the ledger. -/
theorem pending_create (ds : DeploymentStore)
    (h1 : ∀ id : String, ∀ d : Deployment, ds.deployments id = some d → d.status = "pending")
    (h2 : ∀ cid : String, ∀ d ∈ (ds.byCluster cid).getD [], d.status = "pending")
    (uuidStr clusterID imageURL : String) (now : Time) :
    (∀ id : String, ∀ d : Deployment,
      (ds.create uuidStr clusterID imageURL now).2.deployments id = some d →
        d.status = "pending") ∧
    (∀ cid : String, ∀ d ∈ ((ds.create uuidStr clusterID imageURL now).2.byCluster cid).getD [],
      d.status = "pending") := by
  constructor
  · intro id d hd
    rw [create_deployments_cluster] at hd
    by_cases hid : id = (mkDeployment uuidStr clusterID imageURL now).id
    · rw [if_pos hid] at hd
      have : mkDeployment uuidStr clusterID imageURL now = d := Option.some.inj hd
      rw [← this]
      rfl
    · rw [if_neg hid] at hd
      exact h1 id d hd
  · intro cid d hd
    rw [create_byCluster] at hd
    by_cases hcid : cid = clusterID
    · rw [if_pos hcid] at hd
      simp only [Option.getD_some] at hd
      rcases List.mem_append.mp hd with hold | hnew
      · exact h2 clusterID d hold
      · rw [List.mem_singleton.mp hnew]
        rfl
    · rw [if_neg hcid] at hd
      exact h2 cid d hd

/-- One system step preserves the all-pending invariant; in particular
the dispatch goroutine (`runDispatch`) never writes a status. -/
theorem sysStep_pending (st : SysState) (op : SysOp) (h : PendingInv st) :
    PendingInv (sysStep st op) := by
  obtain ⟨h1, h2⟩ := h
  cases op with
  | addCluster genId name kubeconfig => exact ⟨h1, h2⟩
  | createDeployment clusterID imageURL uuidStr now =>
    simp only [sysStep, handleCreateDeployment]
    by_cases hv : clusterID = "" ∨ imageURL = ""
    · rw [if_pos hv]
      exact ⟨h1, h2⟩
    · rw [if_neg hv]
      cases hget : st.cs.get clusterID with
      | none => exact ⟨h1, h2⟩
      | some cluster =>
        have := pending_create st.ds h1 h2 uuidStr clusterID imageURL now
        exact ⟨this.1, this.2⟩
  | runDispatch i ok =>
    simp only [sysStep]
    cases htask : st.tasks[i]? with
    | none => exact ⟨h1, h2⟩
    | some task => exact ⟨h1, h2⟩
  | listDeployments clusterID => exact ⟨h1, h2⟩
  | listClusters => exact ⟨h1, h2⟩

theorem runSys_pending (ops : List SysOp) (st : SysState) (h : PendingInv st) :
    PendingInv (runSys ops st) := by
  induction ops generalizing st with
  | nil => exact h
  | cons op rest ih => exact ih (sysStep st op) (sysStep_pending st op h)

theorem pendingInv_init : PendingInv initSysState := by
  constructor
  · intro id d hd
    simp [initSysState, emptyDeploymentStore] at hd
  · intro cid d hd
    simp [initSysState, emptyDeploymentStore] at hd

end ClusterVariant

/-! ### Helper lemmas: id sets and markOffline -/

theorem depPrefix_inj : Function.Injective (fun p : String => "dep-" ++ p) := by
  intro p q h
  have h2 := congrArg String.data h
  simp only [String.data_append] at h2
  exact String.ext (List.append_cancel_left h2)

namespace AgentVariant

theorem markOffline_id (t : Time) (a : Agent) : (markOffline t a).id = a.id := by
  unfold markOffline
  split <;> rfl

theorem markOffline_lastSeen (t : Time) (a : Agent) :
    (markOffline t a).lastSeen = a.lastSeen := by
  unfold markOffline
  split <;> rfl

theorem markOffline_keeps_offline (t : Time) (a : Agent) (h : a.status = "offline") :
    (markOffline t a).status = "offline" := by
  unfold markOffline
  split
  · rfl
  · exact h

theorem idSet_map (l : List Agent) (f : Agent → Agent) (hf : ∀ a, (f a).id = a.id)
    (i : String) : (∃ a ∈ l.map f, a.id = i) ↔ ∃ a ∈ l, a.id = i := by
  constructor
  · rintro ⟨a, ha, rfl⟩
    rcases List.mem_map.mp ha with ⟨a0, ha0, rfl⟩
    exact ⟨a0, ha0, (hf a0).symm⟩
  · rintro ⟨a, ha, rfl⟩
    exact ⟨f a, List.mem_map_of_mem f ha, hf a⟩

theorem idSet_runAgentOps (evs : List (AgentOp × Time)) (s : AgentStore) (i : String) :
    (∃ a ∈ (runAgentOps evs s).agents, a.id = i) ↔
      i ∈ registeredIds evs ∨ ∃ a ∈ s.agents, a.id = i := by
  induction evs generalizing s with
  | nil => simp [runAgentOps, registeredIds]
  | cons e rest ih =>
    obtain ⟨op, t⟩ := e
    cases op with
    | register genId addr =>
      have hstep : agentStep s (.register genId addr) t =
          ⟨upsert s.agents { id := genId, address := addr, lastSeen := t, status := "online" }⟩ :=
        rfl
      simp only [runAgentOps, hstep, registeredIds, List.mem_cons]
      rw [ih]
      rw [idSet_upsert]
      tauto
    | heartbeat hid =>
      have hids : ∀ i', (∃ a ∈ (agentStep s (.heartbeat hid) t).agents, a.id = i') ↔
          ∃ a ∈ s.agents, a.id = i' := by
        intro i'
        simp only [agentStep, AgentStore.heartbeat]
        by_cases hany : s.agents.any (fun a => a.id == hid)
        · rw [if_pos hany]
          exact idSet_map s.agents _ (fun a => by
            by_cases h : a.id = hid
            · simp [h]
            · simp [h]) i'
        · rw [if_neg hany]
      simp only [runAgentOps, registeredIds]
      rw [ih]
      constructor
      · rintro (h | h)
        · exact Or.inl h
        · exact Or.inr ((hids i).mp h)
      · rintro (h | h)
        · exact Or.inl h
        · exact Or.inr ((hids i).mpr h)
    | list =>
      have hids : ∀ i', (∃ a ∈ (agentStep s .list t).agents, a.id = i') ↔
          ∃ a ∈ s.agents, a.id = i' := by
        intro i'
        exact idSet_map s.agents _ (markOffline_id t) i'
      simp only [runAgentOps, registeredIds]
      rw [ih]
      constructor
      · rintro (h | h)
        · exact Or.inl h
        · exact Or.inr ((hids i).mp h)
      · rintro (h | h)
        · exact Or.inl h
        · exact Or.inr ((hids i).mpr h)

end AgentVariant

/-! ### Claim theorems -/

/-- C2: for every registered heartbeat target, `List` recomputes its
status before returning: starting from the empty registry, for any
timed trace with a monotone clock whose events all happen no later than
`now`, every agent in the `List now` output carries status `"offline"`
exactly when `now − lastSeen > 45s` and `"online"` otherwise; in
particular elapsed time exactly 45s falls on the `"online"` side of the
strict comparison. -/
theorem list_recomputes_liveness_status (evs : List (AgentVariant.AgentOp × Time)) (now : Time)
    (hchain : List.Chain (fun x y : Time => x ≤ y) 0 (evs.map Prod.snd))
    (hle : ∀ e ∈ evs, e.2 ≤ now) :
    ∀ a ∈ ((AgentVariant.runAgentOps evs AgentVariant.emptyAgentStore).list now).1,
      a.status = if now - a.lastSeen > offlineCutoff then "offline" else "online" := by
  have hinv : AgentVariant.AgentInv now (AgentVariant.runAgentOps evs AgentVariant.emptyAgentStore) :=
    AgentVariant.runAgentOps_inv evs AgentVariant.emptyAgentStore 0 now
      (fun a ha => by cases ha) hchain hle (Nat.zero_le _)
  intro a ha
  have hout : ((AgentVariant.runAgentOps evs AgentVariant.emptyAgentStore).list now).1 =
      (AgentVariant.runAgentOps evs AgentVariant.emptyAgentStore).agents.map
        (AgentVariant.markOffline now) := rfl
  rw [hout] at ha
  rcases List.mem_map.mp ha with ⟨a0, ha0, rfl⟩
  obtain ⟨h1, h2, h3⟩ := hinv a0 ha0
  unfold AgentVariant.markOffline
  by_cases hcut : now - a0.lastSeen > offlineCutoff
  · rw [if_pos hcut]
    simp only
    rw [if_pos hcut]
  · rw [if_neg hcut]
    rw [if_neg hcut]
    rcases h3 with hon | hoff
    · exact hon
    · exact absurd (h2 hoff) hcut

/-- Witness for C2 at a concrete trace: one agent registered at time 0
and listed at 46s with no heartbeat in between (46s − 0 > 45s, so the
characterization reports it `"offline"`). -/
theorem list_recomputes_liveness_status_witness :
    List.Chain (fun x y : Time => x ≤ y) 0
      ([(AgentVariant.AgentOp.register "11111111-aaaa-4aaa-8aaa-aaaaaaaaaaaa" "agent-1:9090", 0)].map
        Prod.snd) ∧
    (∀ e ∈ [(AgentVariant.AgentOp.register "11111111-aaaa-4aaa-8aaa-aaaaaaaaaaaa" "agent-1:9090",
        (0 : Time))], e.2 ≤ 46000000000) ∧
    ∀ a ∈ ((AgentVariant.runAgentOps
        [(AgentVariant.AgentOp.register "11111111-aaaa-4aaa-8aaa-aaaaaaaaaaaa" "agent-1:9090", 0)]
        AgentVariant.emptyAgentStore).list 46000000000).1,
      a.status = if 46000000000 - a.lastSeen > offlineCutoff then "offline" else "online" :=
  ⟨by simp, by decide,
    list_recomputes_liveness_status
      [(AgentVariant.AgentOp.register "11111111-aaaa-4aaa-8aaa-aaaaaaaaaaaa" "agent-1:9090", 0)]
      46000000000 (by simp) (by decide)⟩

/-- C5: starting from the empty registry, `Heartbeat id now` returns
`true` exactly when `id` was returned by some earlier `Register` of the
trace (and `false` for every id never registered); when it returns
`true` it sets that agent's `lastSeen` to `now` and its status to
`"online"`, and a `List` at any time `now'` within the 45s window shows
that agent as `"online"`. -/
theorem heartbeat_known_and_marks_online (evs : List (AgentVariant.AgentOp × Time))
    (id : String) (now now' : Time) (hwin : now' - now ≤ offlineCutoff) :
    (((AgentVariant.runAgentOps evs AgentVariant.emptyAgentStore).heartbeat id now).1 = true ↔
      id ∈ AgentVariant.registeredIds evs) ∧
    (((AgentVariant.runAgentOps evs AgentVariant.emptyAgentStore).heartbeat id now).1 = true →
      (∃ a ∈ ((AgentVariant.runAgentOps evs AgentVariant.emptyAgentStore).heartbeat id now).2.agents,
        a.id = id ∧ a.lastSeen = now ∧ a.status = "online") ∧
      ∃ a ∈ (((AgentVariant.runAgentOps evs AgentVariant.emptyAgentStore).heartbeat
          id now).2.list now').1,
        a.id = id ∧ a.status = "online") := by
  have hmem : (∃ a ∈ (AgentVariant.runAgentOps evs AgentVariant.emptyAgentStore).agents,
      a.id = id) ↔ id ∈ AgentVariant.registeredIds evs := by
    rw [AgentVariant.idSet_runAgentOps]
    simp [AgentVariant.emptyAgentStore]
  have hany : ((AgentVariant.runAgentOps evs AgentVariant.emptyAgentStore).agents.any
      (fun a => a.id == id)) = true ↔
      ∃ a ∈ (AgentVariant.runAgentOps evs AgentVariant.emptyAgentStore).agents, a.id = id := by
    rw [List.any_eq_true]
    constructor
    · rintro ⟨a, ha, h⟩
      exact ⟨a, ha, by simpa using h⟩
    · rintro ⟨a, ha, h⟩
      exact ⟨a, ha, by simpa using h⟩
  constructor
  · simp only [AgentVariant.AgentStore.heartbeat]
    by_cases hc : ((AgentVariant.runAgentOps evs AgentVariant.emptyAgentStore).agents.any
        (fun a => a.id == id)) = true
    · rw [if_pos hc]
      simpa using hmem.mp (hany.mp hc)
    · rw [if_neg hc]
      constructor
      · intro h
        exact absurd h (by simp)
      · intro hreg
        exact absurd (hany.mpr (hmem.mpr hreg)) hc
  · intro htrue
    have hc : ((AgentVariant.runAgentOps evs AgentVariant.emptyAgentStore).agents.any
        (fun a => a.id == id)) = true := by
      by_contra hc
      simp only [AgentVariant.AgentStore.heartbeat, if_neg hc] at htrue
      cases htrue
    obtain ⟨a0, ha0, hid0⟩ := hany.mp hc
    have hstore : ((AgentVariant.runAgentOps evs AgentVariant.emptyAgentStore).heartbeat
        id now).2.agents =
        (AgentVariant.runAgentOps evs AgentVariant.emptyAgentStore).agents.map
          (fun a => if a.id = id then { a with lastSeen := now, status := "online" } else a) := by
      simp only [AgentVariant.AgentStore.heartbeat, if_pos hc]
    constructor
    · refine ⟨{ a0 with lastSeen := now, status := "online" }, ?_, hid0, rfl, rfl⟩
      rw [hstore]
      have : (if a0.id = id then { a0 with lastSeen := now, status := "online" } else a0) =
          { a0 with lastSeen := now, status := "online" } := if_pos hid0
      exact this ▸ List.mem_map_of_mem _ ha0
    · have hlist : (((AgentVariant.runAgentOps evs AgentVariant.emptyAgentStore).heartbeat
          id now).2.list now').1 =
          ((AgentVariant.runAgentOps evs AgentVariant.emptyAgentStore).heartbeat
            id now).2.agents.map (AgentVariant.markOffline now') := rfl
      refine ⟨AgentVariant.markOffline now' { a0 with lastSeen := now, status := "online" },
        ?_, ?_, ?_⟩
      · rw [hlist, hstore]
        have : (if a0.id = id then { a0 with lastSeen := now, status := "online" } else a0) =
            { a0 with lastSeen := now, status := "online" } := if_pos hid0
        exact List.mem_map_of_mem _ (this ▸ List.mem_map_of_mem _ ha0)
      · rw [AgentVariant.markOffline_id]
        exact hid0
      · unfold AgentVariant.markOffline
        rw [if_neg]
        simp only [Nat.not_lt]
        exact hwin

/-- Witness for C5: one registration at time 0, a heartbeat for the
registered id at 5ns, a heartbeat listing at 10ns (within the window). -/
theorem heartbeat_known_and_marks_online_witness :
    ((10 : Time) - 5 ≤ offlineCutoff) ∧
    ((((AgentVariant.runAgentOps
        [(AgentVariant.AgentOp.register "22222222-bbbb-4bbb-8bbb-bbbbbbbbbbbb" "agent-1:9090", 0)]
        AgentVariant.emptyAgentStore).heartbeat "22222222-bbbb-4bbb-8bbb-bbbbbbbbbbbb" 5).1 = true ↔
      "22222222-bbbb-4bbb-8bbb-bbbbbbbbbbbb" ∈ AgentVariant.registeredIds
        [(AgentVariant.AgentOp.register "22222222-bbbb-4bbb-8bbb-bbbbbbbbbbbb" "agent-1:9090", 0)])) :=
  ⟨by decide,
    (heartbeat_known_and_marks_online
      [(AgentVariant.AgentOp.register "22222222-bbbb-4bbb-8bbb-bbbbbbbbbbbb" "agent-1:9090", 0)]
      "22222222-bbbb-4bbb-8bbb-bbbbbbbbbbbb" 5 10 (by decide)).1⟩

/-- C10: in the agent variant, `List` only ever changes a status to
`"offline"` and never writes `"online"`: (a) any agent reported
`"online"` by a `List` was already `"online"` (with the same id) before
the call; (b) an agent whose stored status is `"offline"` keeps status
`"offline"` through any further operations that contain no heartbeat for
its id and no registration reusing its id — in particular every later
`List` keeps reporting it `"offline"` until such a heartbeat arrives. -/
theorem list_never_writes_online :
    (∀ (s : AgentVariant.AgentStore) (now : Time) (a' : AgentVariant.Agent),
      a' ∈ (s.list now).2.agents → a'.status = "online" →
        ∃ a ∈ s.agents, a'.id = a.id ∧ a.status = "online") ∧
    (∀ (s : AgentVariant.AgentStore) (evs : List (AgentVariant.AgentOp × Time)) (id : String),
      (∀ e ∈ evs, AgentVariant.touchesId id e.1 = false) →
      (∃ a ∈ s.agents, a.id = id ∧ a.status = "offline") →
      ∃ a ∈ (AgentVariant.runAgentOps evs s).agents, a.id = id ∧ a.status = "offline") := by
  constructor
  · intro s now a' ha' hon
    have : (s.list now).2.agents = s.agents.map (AgentVariant.markOffline now) := rfl
    rw [this] at ha'
    rcases List.mem_map.mp ha' with ⟨a0, ha0, rfl⟩
    refine ⟨a0, ha0, AgentVariant.markOffline_id now a0, ?_⟩
    unfold AgentVariant.markOffline at hon
    by_cases hcut : now - a0.lastSeen > offlineCutoff
    · rw [if_pos hcut] at hon
      exact absurd hon (by simp)
    · rwa [if_neg hcut] at hon
  · intro s evs id hnt hoff
    induction evs generalizing s with
    | nil => exact hoff
    | cons e rest ih =>
      obtain ⟨a0, ha0, hid0, hst0⟩ := hoff
      have hne : AgentVariant.touchesId id e.1 = false := hnt e (List.mem_cons_self _ _)
      have hrest : ∀ e' ∈ rest, AgentVariant.touchesId id e'.1 = false :=
        fun e' he' => hnt e' (List.mem_cons_of_mem _ he')
      refine ih (AgentVariant.agentStep s e.1 e.2) hrest ?_
      obtain ⟨op, t⟩ := e
      cases op with
      | register genId addr =>
        have hgen : ¬ genId = id := by simpa [AgentVariant.touchesId] using hne
        have hne' : a0.id ≠ genId := by
          rw [hid0]
          exact fun h => hgen h.symm
        exact ⟨a0, AgentVariant.mem_upsert_of_ne s.agents _ a0 ha0 hne', hid0, hst0⟩
      | heartbeat hid =>
        have hhid : ¬ hid = id := by simpa [AgentVariant.touchesId] using hne
        simp only [AgentVariant.agentStep, AgentVariant.AgentStore.heartbeat]
        by_cases hany : s.agents.any (fun a => a.id == hid)
        · rw [if_pos hany]
          refine ⟨a0, ?_, hid0, hst0⟩
          have heq : (if a0.id = hid then
              { a0 with lastSeen := t, status := "online" } else a0) = a0 := by
            rw [if_neg]
            rw [hid0]
            exact fun h => hhid h.symm
          exact heq ▸ List.mem_map_of_mem _ ha0
        · rw [if_neg hany]
          exact ⟨a0, ha0, hid0, hst0⟩
      | list =>
        refine ⟨AgentVariant.markOffline t a0, List.mem_map_of_mem _ ha0, ?_, ?_⟩
        · rw [AgentVariant.markOffline_id]
          exact hid0
        · exact AgentVariant.markOffline_keeps_offline t a0 hst0

/-- Witness for C10: part (a) at a one-agent store listed inside the
45s window, part (b) at a store holding an offline agent run through a
later `List` step. -/
theorem list_never_writes_online_witness :
    (∃ a ∈ (AgentVariant.AgentStore.mk
        [{ id := "ag-1", address := "a:1", lastSeen := 0, status := "online" }]).agents,
      ({ id := "ag-1", address := "a:1", lastSeen := 0, status := "online" } :
        AgentVariant.Agent).id = a.id ∧ a.status = "online") ∧
    ∃ a ∈ (AgentVariant.runAgentOps [(AgentVariant.AgentOp.list, 50)]
        (AgentVariant.AgentStore.mk
          [{ id := "ag-2", address := "a:2", lastSeen := 0, status := "offline" }])).agents,
      a.id = "ag-2" ∧ a.status = "offline" :=
  ⟨list_never_writes_online.1
    (AgentVariant.AgentStore.mk
      [{ id := "ag-1", address := "a:1", lastSeen := 0, status := "online" }]) 10
    { id := "ag-1", address := "a:1", lastSeen := 0, status := "online" }
    (by decide) (by decide),
   list_never_writes_online.2
    (AgentVariant.AgentStore.mk
      [{ id := "ag-2", address := "a:2", lastSeen := 0, status := "offline" }])
    [(AgentVariant.AgentOp.list, 50)] "ag-2" (by decide) (by decide)⟩

/-- C7: `ListForAgent` returns a structural copy (`copySlice`, the
`make`+`copy` of the source) of the owner's index slice: for an owner
with no entry in the index it returns the empty sequence rather than
failing, and in general the returned sequence is value-equal to the
stored slice while being a fresh list, the store itself left untouched
(the operation reads but never writes the index). -/
theorem listForAgent_copy_and_empty (s : AgentVariant.DeploymentStore) (agentID : String) :
    (s.byAgent agentID = none → s.listForAgent agentID = []) ∧
    s.listForAgent agentID = (s.byAgent agentID).getD [] := by
  constructor
  · intro h
    simp [AgentVariant.DeploymentStore.listForAgent, h, AgentVariant.copySlice]
  · simp [AgentVariant.DeploymentStore.listForAgent, AgentVariant.copySlice_eq]

/-- Witness for C7: the empty store has no index entry for `"agent-1"`
and `ListForAgent` returns the empty list there. -/
theorem listForAgent_copy_and_empty_witness :
    AgentVariant.emptyDeploymentStore.byAgent "agent-1" = none ∧
    AgentVariant.emptyDeploymentStore.listForAgent "agent-1" = [] :=
  ⟨rfl, (listForAgent_copy_and_empty AgentVariant.emptyDeploymentStore "agent-1").1 rfl⟩

/-- C1 counterexample: `Create` ids are `"dep-" + uuid[:8]` with no
collision check, so two distinct, well-formed uuid draws agreeing on
their first 8 characters make two `Create` calls in one process return
the very same deployment identity — the claimed pairwise distinctness
fails at this concrete input. -/
theorem create_ids_collide_on_prefix :
    uuidShaped "aaaaaaaa-1111-4aaa-8aaa-aaaaaaaaaaaa" = true ∧
    uuidShaped "aaaaaaaa-2222-4aaa-8aaa-aaaaaaaaaaaa" = true ∧
    "aaaaaaaa-1111-4aaa-8aaa-aaaaaaaaaaaa" ≠ "aaaaaaaa-2222-4aaa-8aaa-aaaaaaaaaaaa" ∧
    (AgentVariant.emptyDeploymentStore.create
        "aaaaaaaa-1111-4aaa-8aaa-aaaaaaaaaaaa" "agent-1" "img1" 0).1.id =
      ((AgentVariant.emptyDeploymentStore.create
          "aaaaaaaa-1111-4aaa-8aaa-aaaaaaaaaaaa" "agent-1" "img1" 0).2.create
        "aaaaaaaa-2222-4aaa-8aaa-aaaaaaaaaaaa" "agent-2" "img2" 1).1.id :=
  ⟨by decide, by decide, by decide, rfl⟩

/-- C1 amended: every identity returned by a sequence of `Create` calls
is `"dep-"` followed by 8 hexadecimal characters (given well-formed uuid
draws), and the returned identities are pairwise distinct **provided**
the first-8-character prefixes of the drawn uuids are pairwise distinct
— the code itself performs no collision check, so distinctness holds
only under that freshness condition on the uuid draws. -/
theorem create_id_format_and_distinct (ins : List AgentVariant.CreateIn)
    (hshape : ∀ c ∈ ins, uuidShaped c.uuidStr = true) :
    (∀ d ∈ (AgentVariant.runCreates ins AgentVariant.emptyDeploymentStore).1,
      ∃ p, d.id = "dep-" ++ p ∧ isHex8 p = true) ∧
    ((ins.map (fun c => c.uuidStr.take 8)).Nodup →
      ((AgentVariant.runCreates ins AgentVariant.emptyDeploymentStore).1.map
        AgentVariant.Deployment.id).Nodup) := by
  constructor
  · intro d hd
    rw [AgentVariant.runCreates_fst] at hd
    rcases List.mem_map.mp hd with ⟨c, hc, rfl⟩
    exact ⟨c.uuidStr.take 8, rfl, hshape c hc⟩
  · intro hnd
    rw [AgentVariant.runCreates_fst, List.map_map]
    have hcomp : (AgentVariant.Deployment.id ∘ fun c : AgentVariant.CreateIn =>
        AgentVariant.mkDeployment c.uuidStr c.agentID c.imageURL c.now) =
        (fun p => "dep-" ++ p) ∘ (fun c : AgentVariant.CreateIn => c.uuidStr.take 8) := rfl
    rw [hcomp, ← List.map_map]
    exact hnd.map depPrefix_inj

/-- Witness for C1 amended: two creates with well-formed uuids of
distinct 8-character prefixes. -/
theorem create_id_format_and_distinct_witness :
    (∀ c ∈ [(⟨"33333333-aaaa-4aaa-8aaa-aaaaaaaaaaaa", "agent-1", "img1", 0⟩ :
        AgentVariant.CreateIn),
      ⟨"44444444-bbbb-4bbb-8bbb-bbbbbbbbbbbb", "agent-2", "img2", 1⟩],
      uuidShaped c.uuidStr = true) ∧
    (∀ d ∈ (AgentVariant.runCreates
        [⟨"33333333-aaaa-4aaa-8aaa-aaaaaaaaaaaa", "agent-1", "img1", 0⟩,
         ⟨"44444444-bbbb-4bbb-8bbb-bbbbbbbbbbbb", "agent-2", "img2", 1⟩]
        AgentVariant.emptyDeploymentStore).1,
      ∃ p, d.id = "dep-" ++ p ∧ isHex8 p = true) :=
  ⟨by decide,
    (create_id_format_and_distinct
      [⟨"33333333-aaaa-4aaa-8aaa-aaaaaaaaaaaa", "agent-1", "img1", 0⟩,
       ⟨"44444444-bbbb-4bbb-8bbb-bbbbbbbbbbbb", "agent-2", "img2", 1⟩]
      (by decide)).1⟩

/-- C6 counterexample: with no freshness check in `Create`, a repeated
uuid draw makes the same record value appear twice in the owner's
`ListForAgent` output — "appears exactly once in listForTarget" fails at
this concrete input (the count is 2, not 1). -/
theorem create_appears_twice_on_reused_uuid :
    (((AgentVariant.emptyDeploymentStore.create
        "cccccccc-3333-4aaa-8aaa-aaaaaaaaaaaa" "agent-1" "img1" 5).2.create
        "cccccccc-3333-4aaa-8aaa-aaaaaaaaaaaa" "agent-1" "img1" 5).2.listForAgent
        "agent-1").count
      ((AgentVariant.emptyDeploymentStore.create
        "cccccccc-3333-4aaa-8aaa-aaaaaaaaaaaa" "agent-1" "img1" 5).2.create
        "cccccccc-3333-4aaa-8aaa-aaaaaaaaaaaa" "agent-1" "img1" 5).1 = 2 := by
  decide

/-- C6 amended: a `Create` call whose allocated id is fresh (no earlier
create of the trace allocated the same `"dep-"+uuid[:8]` id) returns a
record with status `"pending"` and `createdAt = now`, stores it in the
primary map under its id, appends it to the owner's index slice, and the
record then appears exactly once in `ListForAgent` of its owner and in
no other owner's list.  Freshness is required: the code performs no
collision check (see the counterexample). -/
theorem create_spec_with_fresh_id (ins : List AgentVariant.CreateIn)
    (c : AgentVariant.CreateIn)
    (hnd : (AgentVariant.depIds (ins ++ [c])).Nodup) :
    (AgentVariant.mkDeployment c.uuidStr c.agentID c.imageURL c.now).status = "pending" ∧
    (AgentVariant.mkDeployment c.uuidStr c.agentID c.imageURL c.now).createdAt = c.now ∧
    ((AgentVariant.runCreates ins AgentVariant.emptyDeploymentStore).2.create
        c.uuidStr c.agentID c.imageURL c.now).1 =
      AgentVariant.mkDeployment c.uuidStr c.agentID c.imageURL c.now ∧
    ((AgentVariant.runCreates ins AgentVariant.emptyDeploymentStore).2.create
        c.uuidStr c.agentID c.imageURL c.now).2.deployments
        (AgentVariant.mkDeployment c.uuidStr c.agentID c.imageURL c.now).id =
      some (AgentVariant.mkDeployment c.uuidStr c.agentID c.imageURL c.now) ∧
    ((AgentVariant.runCreates ins AgentVariant.emptyDeploymentStore).2.create
        c.uuidStr c.agentID c.imageURL c.now).2.byAgent c.agentID =
      some (((AgentVariant.runCreates ins AgentVariant.emptyDeploymentStore).2.byAgent
          c.agentID).getD [] ++
        [AgentVariant.mkDeployment c.uuidStr c.agentID c.imageURL c.now]) ∧
    (((AgentVariant.runCreates ins AgentVariant.emptyDeploymentStore).2.create
        c.uuidStr c.agentID c.imageURL c.now).2.listForAgent c.agentID).count
      (AgentVariant.mkDeployment c.uuidStr c.agentID c.imageURL c.now) = 1 ∧
    ∀ other : String, other ≠ c.agentID →
      AgentVariant.mkDeployment c.uuidStr c.agentID c.imageURL c.now ∉
        ((AgentVariant.runCreates ins AgentVariant.emptyDeploymentStore).2.create
          c.uuidStr c.agentID c.imageURL c.now).2.listForAgent other := by
  have hsplit : AgentVariant.depIds (ins ++ [c]) =
      AgentVariant.depIds ins ++
        [(AgentVariant.mkDeployment c.uuidStr c.agentID c.imageURL c.now).id] := by
    simp [AgentVariant.depIds]
  rw [hsplit] at hnd
  rcases List.nodup_append.mp hnd with ⟨hnd1, _, hdisj⟩
  have hfreshIns : (AgentVariant.mkDeployment c.uuidStr c.agentID c.imageURL c.now).id ∉
      AgentVariant.depIds ins :=
    fun hmem => hdisj hmem (List.mem_singleton.mpr rfl)
  have hinv := AgentVariant.runCreates_inv ins [] AgentVariant.emptyDeploymentStore
    AgentVariant.ledgerInv_empty (by simpa using hnd1)
  simp only [List.nil_append] at hinv
  refine ⟨rfl, rfl, rfl, ?_, ?_, ?_, ?_⟩
  · rw [AgentVariant.create_deployments, if_pos rfl]
  · rw [AgentVariant.create_byAgent, if_pos rfl]
  · have hlist : ((AgentVariant.runCreates ins AgentVariant.emptyDeploymentStore).2.create
        c.uuidStr c.agentID c.imageURL c.now).2.listForAgent c.agentID =
        ((AgentVariant.runCreates ins AgentVariant.emptyDeploymentStore).2.byAgent
          c.agentID).getD [] ++
          [AgentVariant.mkDeployment c.uuidStr c.agentID c.imageURL c.now] := by
      unfold AgentVariant.DeploymentStore.listForAgent
      rw [AgentVariant.create_byAgent, if_pos rfl]
      simp [AgentVariant.copySlice_eq]
    rw [hlist, List.count_append]
    have hnotm : AgentVariant.mkDeployment c.uuidStr c.agentID c.imageURL c.now ∉
        ((AgentVariant.runCreates ins AgentVariant.emptyDeploymentStore).2.byAgent
          c.agentID).getD [] := by
      intro hm
      obtain ⟨_, hidused, _⟩ := hinv.1 c.agentID _ hm
      exact hfreshIns hidused
    rw [List.count_eq_zero.mpr hnotm]
    simp
  · intro other hne hm
    unfold AgentVariant.DeploymentStore.listForAgent at hm
    rw [AgentVariant.create_byAgent, if_neg hne, AgentVariant.copySlice_eq] at hm
    obtain ⟨hown, _, _⟩ := hinv.1 other _ hm
    exact hne hown.symm

/-- Witness for C6 amended: one earlier create and a second create with
a distinct uuid prefix; the fresh record is counted exactly once in its
owner's list. -/
theorem create_spec_with_fresh_id_witness :
    (AgentVariant.depIds
      [(⟨"55555555-aaaa-4aaa-8aaa-aaaaaaaaaaaa", "agent-1", "img1", 0⟩ :
          AgentVariant.CreateIn),
        ⟨"66666666-bbbb-4bbb-8bbb-bbbbbbbbbbbb", "agent-2", "img2", 1⟩]).Nodup ∧
    (((AgentVariant.runCreates
        [⟨"55555555-aaaa-4aaa-8aaa-aaaaaaaaaaaa", "agent-1", "img1", 0⟩]
        AgentVariant.emptyDeploymentStore).2.create
        "66666666-bbbb-4bbb-8bbb-bbbbbbbbbbbb" "agent-2" "img2" 1).2.listForAgent
        "agent-2").count
      (AgentVariant.mkDeployment "66666666-bbbb-4bbb-8bbb-bbbbbbbbbbbb" "agent-2" "img2" 1) =
      1 :=
  ⟨by decide,
    (create_spec_with_fresh_id
      [⟨"55555555-aaaa-4aaa-8aaa-aaaaaaaaaaaa", "agent-1", "img1", 0⟩]
      ⟨"66666666-bbbb-4bbb-8bbb-bbbbbbbbbbbb", "agent-2", "img2", 1⟩
      (by decide)).2.2.2.2.2.1⟩

/-- C8 counterexample: two creates whose distinct uuids share the first
8 characters produce a store whose primary map and secondary index
disagree — the first record is still reachable from its owner's index
slice, but the map entry under its id was overwritten by the second
record. -/
theorem map_and_index_disagree_on_collision :
    ¬ AgentVariant.StoreAgrees
        ((AgentVariant.emptyDeploymentStore.create
            "dddddddd-1111-4aaa-8aaa-aaaaaaaaaaaa" "agent-1" "img1" 0).2.create
          "dddddddd-2222-4aaa-8aaa-aaaaaaaaaaaa" "agent-2" "img2" 1).2 := by
  intro h
  have hmem : AgentVariant.mkDeployment
      "dddddddd-1111-4aaa-8aaa-aaaaaaaaaaaa" "agent-1" "img1" 0 ∈
      ((((AgentVariant.emptyDeploymentStore.create
          "dddddddd-1111-4aaa-8aaa-aaaaaaaaaaaa" "agent-1" "img1" 0).2.create
        "dddddddd-2222-4aaa-8aaa-aaaaaaaaaaaa" "agent-2" "img2" 1).2.byAgent
        "agent-1").getD []) := by
    decide
  have hlook := h.1 "agent-1" _ hmem
  exact absurd hlook (by decide)

/-- C8 amended: after any sequence of `Create` calls whose allocated
`"dep-"+uuid[:8]` identifiers are pairwise distinct, the Ledger's
primary map and per-owner secondary index agree: every record reachable
from some owner's index slice is stored in the primary map under its
id, and every record of the primary map is keyed by its id and appears
in its owner's index slice.  The freshness condition is required
because a colliding id overwrites the map entry while the index keeps
the old record (see the counterexample). -/
theorem map_and_index_agree_when_fresh (ins : List AgentVariant.CreateIn)
    (hnd : (AgentVariant.depIds ins).Nodup) :
    AgentVariant.StoreAgrees
      (AgentVariant.runCreates ins AgentVariant.emptyDeploymentStore).2 := by
  have hinv := AgentVariant.runCreates_inv ins [] AgentVariant.emptyDeploymentStore
    AgentVariant.ledgerInv_empty (by simpa using hnd)
  constructor
  · intro aid d hd
    exact (hinv.1 aid d hd).2.2
  · intro id d hd
    exact ⟨(hinv.2 id d hd).1, (hinv.2 id d hd).2.2⟩

/-- Witness for C8 amended: two creates with distinct id prefixes yield
an agreeing store. -/
theorem map_and_index_agree_when_fresh_witness :
    (AgentVariant.depIds
      [(⟨"77777777-aaaa-4aaa-8aaa-aaaaaaaaaaaa", "agent-1", "img1", 0⟩ :
          AgentVariant.CreateIn),
        ⟨"88888888-bbbb-4bbb-8bbb-bbbbbbbbbbbb", "agent-2", "img2", 1⟩]).Nodup ∧
    AgentVariant.StoreAgrees
      (AgentVariant.runCreates
        [⟨"77777777-aaaa-4aaa-8aaa-aaaaaaaaaaaa", "agent-1", "img1", 0⟩,
          ⟨"88888888-bbbb-4bbb-8bbb-bbbbbbbbbbbb", "agent-2", "img2", 1⟩]
        AgentVariant.emptyDeploymentStore).2 :=
  ⟨by decide,
    map_and_index_agree_when_fresh
      [⟨"77777777-aaaa-4aaa-8aaa-aaaaaaaaaaaa", "agent-1", "img1", 0⟩,
        ⟨"88888888-bbbb-4bbb-8bbb-bbbbbbbbbbbb", "agent-2", "img2", 1⟩]
      (by decide)⟩

/-- C3: a `POST /api/v1/deployments` with non-empty fields whose owner
id is unknown to the registry returns 404 `"Cluster not found"` and
creates no deployment (the ledger is returned unchanged and no dispatch
task is spawned) in the cluster variant, while the agent variant answers
the analogous request with 201 and creates the deployment with no
existence check on the agent id. -/
theorem post_deployment_owner_check
    (cs : ClusterVariant.ClusterStore) (ds : ClusterVariant.DeploymentStore)
    (req : ClusterVariant.DeploymentRequest) (uuidStr : String) (now : Time)
    (h1 : req.clusterID ≠ "") (h2 : req.imageURL ≠ "")
    (hmiss : cs.get req.clusterID = none)
    (ds₂ : AgentVariant.DeploymentStore) (req₂ : AgentVariant.DeploymentRequest)
    (uuid₂ : String) (now₂ : Time)
    (g1 : req₂.agentID ≠ "") (g2 : req₂.imageURL ≠ "") :
    ClusterVariant.handleCreateDeployment cs ds req uuidStr now =
      (HttpResult.notFound "Cluster not found", ds, none) ∧
    AgentVariant.handleCreateDeployment ds₂ req₂ uuid₂ now₂ =
      (HttpResult.created (AgentVariant.mkDeployment uuid₂ req₂.agentID req₂.imageURL now₂),
        (ds₂.create uuid₂ req₂.agentID req₂.imageURL now₂).2) := by
  constructor
  · simp only [ClusterVariant.handleCreateDeployment]
    rw [if_neg (by simp [h1, h2]), hmiss]
  · simp only [AgentVariant.handleCreateDeployment]
    rw [if_neg (by simp [g1, g2]), AgentVariant.create_fst]

/-- Witness for C3: an empty cluster registry misses `"cluster-1"`, and
the agent variant creates regardless of its unknown `"agent-X"`. -/
theorem post_deployment_owner_check_witness :
    ClusterVariant.handleCreateDeployment ClusterVariant.emptyClusterStore
      ClusterVariant.emptyDeploymentStore ⟨"cluster-1", "nginx:latest"⟩
      "99999999-aaaa-4aaa-8aaa-aaaaaaaaaaaa" 0 =
      (HttpResult.notFound "Cluster not found", ClusterVariant.emptyDeploymentStore, none) ∧
    AgentVariant.handleCreateDeployment AgentVariant.emptyDeploymentStore
      ⟨"agent-X", "nginx:latest"⟩ "99999999-bbbb-4bbb-8bbb-bbbbbbbbbbbb" 0 =
      (HttpResult.created
        (AgentVariant.mkDeployment "99999999-bbbb-4bbb-8bbb-bbbbbbbbbbbb" "agent-X"
          "nginx:latest" 0),
        (AgentVariant.emptyDeploymentStore.create "99999999-bbbb-4bbb-8bbb-bbbbbbbbbbbb"
          "agent-X" "nginx:latest" 0).2) :=
  post_deployment_owner_check ClusterVariant.emptyClusterStore
    ClusterVariant.emptyDeploymentStore ⟨"cluster-1", "nginx:latest"⟩
    "99999999-aaaa-4aaa-8aaa-aaaaaaaaaaaa" 0 (by decide) (by decide) rfl
    AgentVariant.emptyDeploymentStore ⟨"agent-X", "nginx:latest"⟩
    "99999999-bbbb-4bbb-8bbb-bbbbbbbbbbbb" 0 (by decide) (by decide)

/-- C4: starting from process start, after any sequence of system
operations of the cluster variant — cluster registrations, deployment
creations, listings, and dispatch-goroutine executions with arbitrary
success or failure outcomes — every deployment record held by the
Ledger (in the primary map or any owner's index slice) still has status
`"pending"`: the dispatch path never writes `"running"`, `"failed"` or
`"succeeded"` back to the record. -/
theorem status_stuck_at_pending (ops : List ClusterVariant.SysOp) :
    (∀ id : String, ∀ d : ClusterVariant.Deployment,
      (ClusterVariant.runSys ops ClusterVariant.initSysState).ds.deployments id = some d →
        d.status = "pending") ∧
    (∀ cid : String,
      ∀ d ∈ ((ClusterVariant.runSys ops
          ClusterVariant.initSysState).ds.byCluster cid).getD [],
        d.status = "pending") :=
  ClusterVariant.runSys_pending ops ClusterVariant.initSysState ClusterVariant.pendingInv_init

/-- Witness for C4: a concrete run — add a cluster, create a deployment
for it, run the dispatch goroutine with a failure outcome — still shows
the stored record `"pending"`. -/
theorem status_stuck_at_pending_witness :
    (ClusterVariant.runSys
        [ClusterVariant.SysOp.addCluster "cl-1" "prod" "a2ViY29uZmln",
          ClusterVariant.SysOp.createDeployment "cl-1" "nginx:latest"
            "ababab12-aaaa-4aaa-8aaa-aaaaaaaaaaaa" 7,
          ClusterVariant.SysOp.runDispatch 0 false]
        ClusterVariant.initSysState).ds.deployments "dep-ababab12" =
      some (ClusterVariant.mkDeployment "ababab12-aaaa-4aaa-8aaa-aaaaaaaaaaaa" "cl-1"
        "nginx:latest" 7) ∧
    (ClusterVariant.mkDeployment "ababab12-aaaa-4aaa-8aaa-aaaaaaaaaaaa" "cl-1"
        "nginx:latest" 7).status = "pending" :=
  ⟨by decide,
    (status_stuck_at_pending
      [ClusterVariant.SysOp.addCluster "cl-1" "prod" "a2ViY29uZmln",
        ClusterVariant.SysOp.createDeployment "cl-1" "nginx:latest"
          "ababab12-aaaa-4aaa-8aaa-aaaaaaaaaaaa" 7,
        ClusterVariant.SysOp.runDispatch 0 false]).1 "dep-ababab12"
      (ClusterVariant.mkDeployment "ababab12-aaaa-4aaa-8aaa-aaaaaaaaaaaa" "cl-1"
        "nginx:latest" 7) (by decide)⟩

/-- C9: on a valid creation request with a known cluster, the handler
returns the 201 response carrying the record with status `"pending"`
while the dispatch work is merely spawned (returned as a pending task,
not yet executed): the response is fully determined before the executor
runs, and running the spawned dispatch afterwards — with either success
or failure outcome — changes neither the ledger nor the registry, so
the response never waits on, nor depends on, `deployToK8s`. -/
theorem dispatch_is_asynchronous
    (cs : ClusterVariant.ClusterStore) (ds : ClusterVariant.DeploymentStore)
    (req : ClusterVariant.DeploymentRequest) (uuidStr : String) (now : Time)
    (cluster : ClusterVariant.Cluster)
    (h1 : req.clusterID ≠ "") (h2 : req.imageURL ≠ "")
    (hc : cs.get req.clusterID = some cluster) :
    ClusterVariant.handleCreateDeployment cs ds req uuidStr now =
      (HttpResult.created (ClusterVariant.mkDeployment uuidStr req.clusterID req.imageURL now),
        (ds.create uuidStr req.clusterID req.imageURL now).2,
        some ⟨cluster, ClusterVariant.mkDeployment uuidStr req.clusterID req.imageURL now⟩) ∧
    (ClusterVariant.mkDeployment uuidStr req.clusterID req.imageURL now).status = "pending" ∧
    ∀ ok : Bool,
      (ClusterVariant.sysStep
        { cs := cs, ds := (ds.create uuidStr req.clusterID req.imageURL now).2,
          tasks := [⟨cluster, ClusterVariant.mkDeployment uuidStr req.clusterID req.imageURL now⟩],
          failLog := [] }
        (ClusterVariant.SysOp.runDispatch 0 ok)).ds =
        (ds.create uuidStr req.clusterID req.imageURL now).2 ∧
      (ClusterVariant.sysStep
        { cs := cs, ds := (ds.create uuidStr req.clusterID req.imageURL now).2,
          tasks := [⟨cluster, ClusterVariant.mkDeployment uuidStr req.clusterID req.imageURL now⟩],
          failLog := [] }
        (ClusterVariant.SysOp.runDispatch 0 ok)).cs = cs := by
  refine ⟨?_, rfl, ?_⟩
  · simp only [ClusterVariant.handleCreateDeployment]
    rw [if_neg (by simp [h1, h2]), hc]
    rfl
  · intro ok
    cases ok <;> exact ⟨rfl, rfl⟩

/-- Witness for C9: a registry holding one cluster; the handler spawns
the task and the executed dispatch leaves both stores unchanged. -/
theorem dispatch_is_asynchronous_witness :
    ClusterVariant.handleCreateDeployment
      (ClusterVariant.emptyClusterStore.add "cl-9" "prod" "a2ViY29uZmln").2
      ClusterVariant.emptyDeploymentStore ⟨"cl-9", "nginx:latest"⟩
      "fedcba98-aaaa-4aaa-8aaa-aaaaaaaaaaaa" 3 =
      (HttpResult.created
        (ClusterVariant.mkDeployment "fedcba98-aaaa-4aaa-8aaa-aaaaaaaaaaaa" "cl-9"
          "nginx:latest" 3),
        (ClusterVariant.emptyDeploymentStore.create "fedcba98-aaaa-4aaa-8aaa-aaaaaaaaaaaa"
          "cl-9" "nginx:latest" 3).2,
        some ⟨⟨"cl-9", "prod", "a2ViY29uZmln"⟩,
          ClusterVariant.mkDeployment "fedcba98-aaaa-4aaa-8aaa-aaaaaaaaaaaa" "cl-9"
            "nginx:latest" 3⟩) ∧
    (ClusterVariant.mkDeployment "fedcba98-aaaa-4aaa-8aaa-aaaaaaaaaaaa" "cl-9"
      "nginx:latest" 3).status = "pending" :=
  ⟨(dispatch_is_asynchronous
      (ClusterVariant.emptyClusterStore.add "cl-9" "prod" "a2ViY29uZmln").2
      ClusterVariant.emptyDeploymentStore ⟨"cl-9", "nginx:latest"⟩
      "fedcba98-aaaa-4aaa-8aaa-aaaaaaaaaaaa" 3 ⟨"cl-9", "prod", "a2ViY29uZmln"⟩
      (by decide) (by decide) (by decide)).1,
    rfl⟩
